import Mathlib

/-
Shallow embedding of the todo-management-system backend
(src/backend/src/routes/todos.ts and the files route) over an explicit
database state.  Identifiers are strings, as in the Prisma schema (cuid),
dates are opaque natural-number timestamps.  Each route handler becomes a
function from the caller's id, the parsed request and the current database
state to the new state paired with the response.
-/

set_option maxRecDepth 8000

namespace TodoApp

/-- User role enum from the schema: USER or ADMIN. -/
inductive Role
  | USER
  | ADMIN
deriving DecidableEq, Repr

/-- User status enum from the schema: ACTIVE or DISABLED. -/
inductive UserStatus
  | ACTIVE
  | DISABLED
deriving DecidableEq, Repr

/-- A user row: id, role and status are the fields the todo routes consult. -/
structure User where
  id : String
  role : Role
  status : UserStatus
deriving DecidableEq, Repr

/-- A todo row with the fields handled by the routes.
`status` is kept as a raw string, as the route code compares it against
string literals; `dueDate` and `createdAt` are opaque timestamps. -/
structure Todo where
  id : String
  title : String
  description : Option String
  status : String
  dueDate : Option Nat
  order : Int
  createdAt : Nat
  createdById : String
  assignedToId : String
deriving DecidableEq, Repr

/-- A file metadata row (the `File` model), child of a todo. -/
structure FileRec where
  id : String
  filename : String
  originalName : String
  path : String
  size : Nat
  mimeType : String
  todoId : String
deriving DecidableEq, Repr

/-- The database state shared by all requests. -/
structure DB where
  users : List User
  todos : List Todo
  files : List FileRec
deriving DecidableEq, Repr

/-- The access condition repeated in every todo route's where-clause:
the caller is the assignee or the creator of the todo
(`OR: [ assignedToId, createdById ]` in todos.ts).  The spec calls this
predicate `canAccess`.  Note that it consults only the user id, never the
role, so an ADMIN gets no bypass. -/
def canAccess (userId : String) (t : Todo) : Bool :=
  t.assignedToId == userId || t.createdById == userId

/-- GET /:id (todos.ts lines 60-79): `prisma.todo.findFirst` with the id
and the access OR-clause; `none` is answered with the merged
404 `Todo not found or access denied`. -/
def getTodoById (userId tid : String) (db : DB) : Option Todo :=
  db.todos.find? (fun t => t.id == tid && canAccess userId t)

/-- Id uniqueness transfers pointwise: in a row list whose ids are nodup,
two rows with the same id are the same row. -/
theorem todo_id_inj {l : List Todo} (h : (l.map Todo.id).Nodup)
    {a b : Todo} (ha : a ∈ l) (hb : b ∈ l) (hid : a.id = b.id) : a = b :=
  List.inj_on_of_nodup_map h ha hb hid

/-- C1: for every user U and todo T in a store with unique todo ids,
GET /:id returns T exactly when U is T's creator or assignee.  The lookup
consults only `u.id`, never `u.role`, so a caller with role ADMIN who is
neither creator nor assignee is denied (the iff's right side is false for
such a caller regardless of role). -/
theorem getTodoById_access_iff (u : User) (T : Todo) (db : DB)
    (hnd : (db.todos.map Todo.id).Nodup) (hT : T ∈ db.todos) :
    getTodoById u.id T.id db = some T ↔
      (u.id = T.createdById ∨ u.id = T.assignedToId) := by
  unfold getTodoById canAccess
  constructor
  · intro h
    have hp := List.find?_some h
    simp only [Bool.and_eq_true, Bool.or_eq_true, beq_iff_eq] at hp
    rcases hp.2 with h1 | h2
    · exact Or.inr h1.symm
    · exact Or.inl h2.symm
  · intro h
    have hpT : (fun t : Todo => t.id == T.id &&
        (t.assignedToId == u.id || t.createdById == u.id)) T = true := by
      simp only [Bool.and_eq_true, Bool.or_eq_true, beq_iff_eq, beq_self_eq_true,
        true_and]
      rcases h with h | h
      · exact Or.inr h.symm
      · exact Or.inl h.symm
    have hsome : (db.todos.find? (fun t : Todo => t.id == T.id &&
        (t.assignedToId == u.id || t.createdById == u.id))).isSome := by
      rw [List.find?_isSome]
      exact ⟨T, hT, hpT⟩
    rcases Option.isSome_iff_exists.mp hsome with ⟨t', ht'⟩
    have hmem := List.mem_of_find?_eq_some ht'
    have hp' := List.find?_some ht'
    simp only [Bool.and_eq_true, Bool.or_eq_true, beq_iff_eq] at hp'
    have : t' = T := todo_id_inj hnd hmem hT hp'.1
    rw [ht', this]

/-- Sample data: an admin user unrelated to the todo below. -/
def adminU : User := { id := "u9", role := Role.ADMIN, status := UserStatus.ACTIVE }

/-- Sample todo created by u1 and assigned to u2. -/
def todoA : Todo :=
  { id := "t1", title := "Buy milk", description := some "from the store",
    status := "PENDING", dueDate := some 100, order := 1, createdAt := 10,
    createdById := "u1", assignedToId := "u2" }

/-- Sample database for the C1 witness. -/
def dbA : DB :=
  { users := [{ id := "u1", role := Role.USER, status := UserStatus.ACTIVE },
              { id := "u2", role := Role.USER, status := UserStatus.ACTIVE },
              adminU],
    todos := [todoA],
    files := [] }

/-- Witness for C1 at a concrete store: the hypotheses hold for `dbA` and
the access iff is obtained for the admin caller. -/
theorem getTodoById_access_iff_witness :
    ((dbA.todos.map Todo.id).Nodup ∧ todoA ∈ dbA.todos) ∧
      (getTodoById adminU.id todoA.id dbA = some todoA ↔
        (adminU.id = todoA.createdById ∨ adminU.id = todoA.assignedToId)) :=
  ⟨⟨by decide, by decide⟩,
    getTodoById_access_iff adminU todoA dbA (by decide) (by decide)⟩

/-- The two shapes the route assigns to `whereClause.OR` in GET /
(todos.ts lines 22-26 and 33-37): the access disjunction, or the
title/description search disjunction.  The second assignment OVERWRITES the
first, exactly as in the JS object. -/
inductive OrClause
  | accessOr (userId : String)
  | searchOr (text : String)
deriving DecidableEq, Repr

/-- The where object GET / builds (todos.ts lines 15-37). -/
structure WhereClause where
  assignedToId : Option String := none
  createdById : Option String := none
  orClause : Option OrClause := none
  status : Option String := none
deriving DecidableEq, Repr

/-- The status enum literals the route checks against (todos.ts line 28). -/
def todoStatusEnum : List String := ["PENDING", "IN_PROGRESS", "COMPLETED"]

/-- Construction of the where clause, mirroring todos.ts lines 15-37.
`type`, `status` and `search` are the raw query parameters (`none` when
absent); the JS truthiness test on `search` is `some s` with `s` nonempty.
A present `search` replaces the `OR` key set by the `type` branch. -/
def buildWhere (userId : String) (type status search : Option String) :
    WhereClause :=
  let w0 : WhereClause := {}
  let w1 :=
    if type == some "assigned" then { w0 with assignedToId := some userId }
    else if type == some "created" then { w0 with createdById := some userId }
    else { w0 with orClause := some (OrClause.accessOr userId) }
  let w2 :=
    match status with
    | some s => if todoStatusEnum.contains s then { w1 with status := some s }
                else w1
    | none => w1
  match search with
  | some s => if s ≠ "" then { w2 with orClause := some (OrClause.searchOr s) }
              else w2
  | none => w2

/-- Substring search: does the needle occur as a contiguous run of the
haystack, starting at some position. -/
def subAt (needle : List Char) : List Char → Bool
  | [] => needle.isEmpty
  | c :: t => needle.isPrefixOf (c :: t) || subAt needle t

/-- Lower-casing of a character list. -/
def lowerChars (l : List Char) : List Char := l.map Char.toLower

/-- Case-insensitive substring match, the semantics of Prisma's
`contains` with `mode: insensitive`. -/
def ciContains (hay needle : String) : Bool :=
  subAt (lowerChars needle.toList) (lowerChars hay.toList)

/-- Evaluation of the OR clause against a todo row.  A `null` description
column never matches a `contains` filter. -/
def orMatches (c : OrClause) (t : Todo) : Bool :=
  match c with
  | OrClause.accessOr uid => t.assignedToId == uid || t.createdById == uid
  | OrClause.searchOr s =>
      ciContains t.title s ||
        (match t.description with
         | some d => ciContains d s
         | none => false)

/-- Evaluation of the full where clause against a todo row: the conjunction
of the keys present in the object. -/
def matchesWhere (w : WhereClause) (t : Todo) : Bool :=
  (match w.assignedToId with
   | some uid => t.assignedToId == uid
   | none => true) &&
  (match w.createdById with
   | some uid => t.createdById == uid
   | none => true) &&
  (match w.orClause with
   | some c => orMatches c t
   | none => true) &&
  (match w.status with
   | some s => t.status == s
   | none => true)

/-- Result comparison for `orderBy: order asc, createdAt desc`
(todos.ts lines 47-50). -/
def todoLE (a b : Todo) : Bool :=
  decide (a.order < b.order) ||
    (a.order == b.order && decide (b.createdAt ≤ a.createdAt))

/-- Insertion step of the result sort. -/
def insertSorted (x : Todo) : List Todo → List Todo
  | [] => [x]
  | y :: ys => if todoLE x y then x :: y :: ys else y :: insertSorted x ys

/-- Sorting of the result set by `todoLE`. -/
def sortTodos (l : List Todo) : List Todo := l.foldr insertSorted []

/-- GET / (todos.ts lines 10-57): build the where clause from the query
parameters, filter the todo table with it, and sort the result. -/
def listTodos (userId : String) (type status search : Option String)
    (db : DB) : List Todo :=
  sortTodos (db.todos.filter (matchesWhere (buildWhere userId type status search)))

/-- Sample todo created by and assigned to u2 only: u1 has no access. -/
def todoB : Todo :=
  { id := "t2", title := "Team milk run", description := none,
    status := "PENDING", dueDate := none, order := 1, createdAt := 20,
    createdById := "u2", assignedToId := "u2" }

/-- Sample database for the C3 counterexample evaluation. -/
def dbB : DB :=
  { users := [{ id := "u1", role := Role.USER, status := UserStatus.ACTIVE },
              { id := "u2", role := Role.USER, status := UserStatus.ACTIVE }],
    todos := [todoB],
    files := [] }

/-- C3: failing-input evaluation of the access-control bug in GET /.
Because the `search` branch overwrites the `OR` key that held the access
disjunction (todos.ts lines 33-37), caller u1 with `search=milk` and no
`type` receives todoB, a todo created by and assigned to u2 only -
contradicting the spec's guarantee that `list` returns only accessible
todos.  The route's own comment, `Get todos for current user`, documents
the intended scoping. -/
theorem listTodos_search_drops_access_filter :
    canAccess "u1" todoB = false ∧
      listTodos "u1" none none (some "milk") dbB = [todoB] := by decide

/-- C10: a status query value outside the enum is silently ignored
(todos.ts line 28 adds the status key only when the value is one of
PENDING, IN_PROGRESS, COMPLETED), so the call behaves exactly as if no
status filter had been passed; no validation error is raised. -/
theorem listTodos_invalid_status_ignored (userId : String)
    (type search : Option String) (db : DB) (s : String)
    (hs : s ∉ todoStatusEnum) :
    listTodos userId type (some s) search db =
      listTodos userId type none search db := by
  simp [listTodos, buildWhere, hs]

/-- Witness for C10 at a concrete store: the filter value DONE is outside
the enum and the two calls coincide on `dbA`. -/
theorem listTodos_invalid_status_ignored_witness :
    "DONE" ∉ todoStatusEnum ∧
      listTodos "u1" none (some "DONE") none dbA =
        listTodos "u1" none none none dbA :=
  ⟨by decide, listTodos_invalid_status_ignored "u1" none none dbA "DONE" (by decide)⟩

/-- A single element of the `todoUpdates` array of PATCH /reorder. -/
structure ReorderUpdate where
  id : String
  order : Int
deriving DecidableEq, Repr

/-- One `prisma.todo.update` of the reorder transaction: set the order of
the row with the given id (todos.ts line 197). -/
def applyOrder (u : ReorderUpdate) (l : List Todo) : List Todo :=
  l.map (fun t => if t.id == u.id then { t with order := u.order } else t)

/-- PATCH /reorder (todos.ts lines 182-204): collect the ids, count the
rows that are both in the id list and accessible, refuse with 403 when that
count differs from the submitted list's length, otherwise apply all order
updates in one transaction.  The returned pair is the database after the
call and the response; the error branch returns the state untouched. -/
def reorderTodos (userId : String) (updates : List ReorderUpdate) (db : DB) :
    DB × Except String Unit :=
  let todoIds := updates.map ReorderUpdate.id
  let userTodos := db.todos.filter
    (fun t => todoIds.contains t.id && canAccess userId t)
  if userTodos.length ≠ todoIds.length then
    (db, Except.error "Access denied to some todos")
  else
    ({ db with todos := updates.foldl (fun l u => applyOrder u l) db.todos },
     Except.ok ())

/-- Ids of a filtered part of a table with nodup ids are nodup. -/
theorem filter_ids_nodup (p : Todo → Bool) {l : List Todo}
    (h : (l.map Todo.id).Nodup) : ((l.filter p).map Todo.id).Nodup :=
  List.Nodup.sublist (List.Sublist.map Todo.id (List.filter_sublist l)) h

/-- Counting argument for the reorder access check: when some id of the
request has no accessible row (it is absent from the table or belongs to a
todo the caller cannot access), the accessible-row count falls strictly
short of the request length. -/
theorem filter_length_lt_of_missing (uid : String) (todoIds : List String)
    (l : List Todo) (hnd : (l.map Todo.id).Nodup) (b : String)
    (hb : b ∈ todoIds)
    (hbad : ∀ t ∈ l, t.id = b → canAccess uid t = false) :
    (l.filter (fun t => todoIds.contains t.id && canAccess uid t)).length <
      todoIds.length := by
  have hndS : ((l.filter (fun t => todoIds.contains t.id && canAccess uid t)).map
      Todo.id).Nodup := filter_ids_nodup _ hnd
  have hin : ∀ x ∈ (l.filter (fun t => todoIds.contains t.id &&
      canAccess uid t)).map Todo.id, x ∈ todoIds ∧ x ≠ b := by
    intro x hx
    rcases List.mem_map.mp hx with ⟨t, ht, rfl⟩
    have htl := List.mem_of_mem_filter ht
    have hpt := List.of_mem_filter ht
    simp only [Bool.and_eq_true] at hpt
    refine ⟨by simpa using hpt.1, ?_⟩
    intro hxb
    have hfalse := hbad t htl hxb
    rw [hfalse] at hpt
    exact Bool.false_ne_true hpt.2
  have hsubset : ((l.filter (fun t => todoIds.contains t.id &&
      canAccess uid t)).map Todo.id).toFinset ⊆ todoIds.toFinset.erase b := by
    intro x hx
    rcases hin x (List.mem_toFinset.mp hx) with ⟨h1, h2⟩
    exact Finset.mem_erase.mpr ⟨h2, List.mem_toFinset.mpr h1⟩
  calc (l.filter (fun t => todoIds.contains t.id && canAccess uid t)).length
      = ((l.filter (fun t => todoIds.contains t.id &&
          canAccess uid t)).map Todo.id).length := (List.length_map _ _).symm
    _ = ((l.filter (fun t => todoIds.contains t.id &&
          canAccess uid t)).map Todo.id).toFinset.card :=
        (List.toFinset_card_of_nodup hndS).symm
    _ ≤ (todoIds.toFinset.erase b).card := Finset.card_le_card hsubset
    _ < todoIds.toFinset.card :=
        Finset.card_erase_lt_of_mem (List.mem_toFinset.mpr hb)
    _ ≤ todoIds.length := todoIds.toFinset_card_le

/-- Counting argument for duplicate ids: the accessible rows are pairwise
distinct, so a request list with a repeated id is strictly longer than any
set of matching rows, even when every id is accessible. -/
theorem filter_length_lt_of_dup (uid : String) (todoIds : List String)
    (l : List Todo) (hnd : (l.map Todo.id).Nodup)
    (hdup : ¬ todoIds.Nodup) :
    (l.filter (fun t => todoIds.contains t.id && canAccess uid t)).length <
      todoIds.length := by
  have hndS : ((l.filter (fun t => todoIds.contains t.id && canAccess uid t)).map
      Todo.id).Nodup := filter_ids_nodup _ hnd
  have hdedup : todoIds.dedup.length < todoIds.length := by
    rcases Nat.lt_or_ge todoIds.dedup.length todoIds.length with h | h
    · exact h
    · exact absurd
        ((todoIds.dedup_sublist.eq_of_length
          (le_antisymm todoIds.dedup_sublist.length_le h)) ▸ todoIds.nodup_dedup)
        hdup
  have hsubset : ((l.filter (fun t => todoIds.contains t.id &&
      canAccess uid t)).map Todo.id).toFinset ⊆ todoIds.toFinset := by
    intro x hx
    rcases List.mem_map.mp (List.mem_toFinset.mp hx) with ⟨t, ht, rfl⟩
    have hpt := List.of_mem_filter ht
    simp only [Bool.and_eq_true] at hpt
    exact List.mem_toFinset.mpr (by simpa using hpt.1)
  calc (l.filter (fun t => todoIds.contains t.id && canAccess uid t)).length
      = ((l.filter (fun t => todoIds.contains t.id &&
          canAccess uid t)).map Todo.id).length := (List.length_map _ _).symm
    _ = ((l.filter (fun t => todoIds.contains t.id &&
          canAccess uid t)).map Todo.id).toFinset.card :=
        (List.toFinset_card_of_nodup hndS).symm
    _ ≤ todoIds.toFinset.card := Finset.card_le_card hsubset
    _ = todoIds.dedup.length := todoIds.card_toFinset
    _ < todoIds.length := hdedup

/-- C2: when some id of the reorder request has no accessible row for the
caller (the todo is someone else's, or no row with that id exists), the
whole call answers 403 `Access denied to some todos` and the database -
every row's order value included - is returned unchanged; no partial
application happens. -/
theorem reorderTodos_denies_inaccessible (userId : String)
    (updates : List ReorderUpdate) (db : DB)
    (hnd : (db.todos.map Todo.id).Nodup)
    (hbad : ∃ u ∈ updates, ∀ t ∈ db.todos, t.id = u.id →
      canAccess userId t = false) :
    reorderTodos userId updates db =
      (db, Except.error "Access denied to some todos") := by
  rcases hbad with ⟨u, hu, hu2⟩
  have hlt := filter_length_lt_of_missing userId (updates.map ReorderUpdate.id)
    db.todos hnd u.id (List.mem_map_of_mem ReorderUpdate.id hu) hu2
  unfold reorderTodos
  simp only []
  rw [if_pos (Nat.ne_of_lt hlt)]

/-- C9: a reorder request in which some todo id appears more than once is
refused with 403 and leaves every order value unchanged, even when every
listed id is accessible to the caller, because the distinct matching rows
can never be as many as the submitted entries. -/
theorem reorderTodos_denies_duplicates (userId : String)
    (updates : List ReorderUpdate) (db : DB)
    (hnd : (db.todos.map Todo.id).Nodup)
    (hdup : ¬ (updates.map ReorderUpdate.id).Nodup) :
    reorderTodos userId updates db =
      (db, Except.error "Access denied to some todos") := by
  have hlt := filter_length_lt_of_dup userId (updates.map ReorderUpdate.id)
    db.todos hnd hdup
  unfold reorderTodos
  simp only []
  rw [if_pos (Nat.ne_of_lt hlt)]

/-- Witness for C2: caller u1 submits an accessible id t1 together with the
nonexistent id tX; the call is refused and `dbA` is unchanged. -/
theorem reorderTodos_denies_inaccessible_witness :
    ((dbA.todos.map Todo.id).Nodup ∧
      (∃ u ∈ [ReorderUpdate.mk "t1" 5, ReorderUpdate.mk "tX" 1],
        ∀ t ∈ dbA.todos, t.id = u.id → canAccess "u1" t = false)) ∧
      reorderTodos "u1" [ReorderUpdate.mk "t1" 5, ReorderUpdate.mk "tX" 1] dbA =
        (dbA, Except.error "Access denied to some todos") :=
  ⟨⟨by decide, by decide⟩,
    reorderTodos_denies_inaccessible "u1"
      [ReorderUpdate.mk "t1" 5, ReorderUpdate.mk "tX" 1] dbA
      (by decide) (by decide)⟩

/-- Witness for C9: caller u1 submits the accessible id t1 twice; the call
is refused and `dbA` is unchanged. -/
theorem reorderTodos_denies_duplicates_witness :
    ((dbA.todos.map Todo.id).Nodup ∧
      ¬ (([ReorderUpdate.mk "t1" 5, ReorderUpdate.mk "t1" 6]).map
          ReorderUpdate.id).Nodup) ∧
      reorderTodos "u1" [ReorderUpdate.mk "t1" 5, ReorderUpdate.mk "t1" 6] dbA =
        (dbA, Except.error "Access denied to some todos") :=
  ⟨⟨by decide, by decide⟩,
    reorderTodos_denies_duplicates "u1"
      [ReorderUpdate.mk "t1" 5, ReorderUpdate.mk "t1" 6] dbA
      (by decide) (by decide)⟩

/-- DELETE /:id (todos.ts lines 207-220): findFirst with the id and
`createdById = userId` - the creator-only rule; 404 on no match,
otherwise the row is deleted.
Modelled from the spec: the Prisma schema carrying the cascade is not
under src, so per the spec clause `cascades deletion of attached files
(storage objects and records) before/with the todo row` the ok branch
also removes the file records whose todoId is the deleted todo. -/
def deleteTodo (userId tid : String) (db : DB) : DB × Except String Unit :=
  match db.todos.find? (fun t => t.id == tid && t.createdById == userId) with
  | none => (db, Except.error "Todo not found or access denied")
  | some _ =>
      ({ db with
          todos := db.todos.filter (fun t => t.id != tid),
          files := db.files.filter (fun f => f.todoId != tid) },
       Except.ok ())

/-- C4: with unique todo ids, delete succeeds exactly when the caller is
the creator; a merely-assigned or unrelated caller gets the merged denial
response with the state untouched; on success neither the todo row nor any
file record of that todo remains. -/
theorem deleteTodo_creator_only (u : User) (T : Todo) (db : DB)
    (hnd : (db.todos.map Todo.id).Nodup) (hT : T ∈ db.todos) :
    ((deleteTodo u.id T.id db).2 = Except.ok () ↔ u.id = T.createdById) ∧
    (u.id = T.createdById →
      (∀ t ∈ (deleteTodo u.id T.id db).1.todos, t.id ≠ T.id) ∧
      (∀ f ∈ (deleteTodo u.id T.id db).1.files, f.todoId ≠ T.id)) ∧
    (u.id ≠ T.createdById →
      deleteTodo u.id T.id db =
        (db, Except.error "Todo not found or access denied")) := by
  have hpos : u.id = T.createdById →
      deleteTodo u.id T.id db =
        ({ db with
            todos := db.todos.filter (fun t => t.id != T.id),
            files := db.files.filter (fun f => f.todoId != T.id) },
         Except.ok ()) := by
    intro hc
    have hpT : (fun t : Todo => t.id == T.id && t.createdById == u.id) T
        = true := by
      simp only [Bool.and_eq_true, beq_iff_eq, beq_self_eq_true, true_and]
      exact hc.symm
    have hsome : (db.todos.find?
        (fun t : Todo => t.id == T.id && t.createdById == u.id)).isSome := by
      rw [List.find?_isSome]
      exact ⟨T, hT, hpT⟩
    rcases Option.isSome_iff_exists.mp hsome with ⟨t', ht'⟩
    unfold deleteTodo
    rw [ht']
  have hneg : u.id ≠ T.createdById →
      deleteTodo u.id T.id db =
        (db, Except.error "Todo not found or access denied") := by
    intro hc
    have hnone : db.todos.find?
        (fun t : Todo => t.id == T.id && t.createdById == u.id) = none := by
      cases h : db.todos.find?
          (fun t : Todo => t.id == T.id && t.createdById == u.id) with
      | none => rfl
      | some t' =>
        have hmem := List.mem_of_find?_eq_some h
        have hp := List.find?_some h
        simp only [Bool.and_eq_true, beq_iff_eq] at hp
        have heq : t' = T := todo_id_inj hnd hmem hT hp.1
        exact absurd (heq ▸ hp.2).symm hc
    unfold deleteTodo
    rw [hnone]
  refine ⟨?_, ?_, hneg⟩
  · constructor
    · intro hok
      by_contra hc
      rw [hneg hc] at hok
      exact Except.noConfusion hok
    · intro hc
      rw [hpos hc]
  · intro hc
    rw [hpos hc]
    constructor
    · intro t ht
      have := List.of_mem_filter ht
      simpa using this
    · intro f hf
      have := List.of_mem_filter hf
      simpa using this

/-- The caller u1, creator of `todoA`. -/
def u1U : User := { id := "u1", role := Role.USER, status := UserStatus.ACTIVE }

/-- Witness for C4: creator u1 against `dbA`, where the hypotheses hold by
evaluation. -/
theorem deleteTodo_creator_only_witness :
    ((dbA.todos.map Todo.id).Nodup ∧ todoA ∈ dbA.todos) ∧
    (((deleteTodo u1U.id todoA.id dbA).2 = Except.ok () ↔
        u1U.id = todoA.createdById) ∧
      (u1U.id = todoA.createdById →
        (∀ t ∈ (deleteTodo u1U.id todoA.id dbA).1.todos, t.id ≠ todoA.id) ∧
        (∀ f ∈ (deleteTodo u1U.id todoA.id dbA).1.files, f.todoId ≠ todoA.id)) ∧
      (u1U.id ≠ todoA.createdById →
        deleteTodo u1U.id todoA.id dbA =
          (dbA, Except.error "Todo not found or access denied"))) :=
  ⟨⟨by decide, by decide⟩,
    deleteTodo_creator_only u1U todoA dbA (by decide) (by decide)⟩

/-- The PUT /:id request body: each field is `none` when the request did
not supply it (`undefined` in JS).  A supplied-but-null description or due
date is `some none`. -/
structure UpdateReq where
  title : Option String
  description : Option (Option String)
  status : Option String
  dueDate : Option (Option Nat)
  order : Option Int
  assignedToId : Option String
deriving DecidableEq, Repr

/-- The field patch `prisma.todo.update` applies with the updateData object
assembled in todos.ts lines 145-162: each column changes exactly when the
request supplied the field, otherwise it keeps its stored value. -/
def applyUpdate (r : UpdateReq) (t : Todo) : Todo :=
  { t with
    title := r.title.getD t.title,
    description := r.description.getD t.description,
    status := r.status.getD t.status,
    dueDate := r.dueDate.getD t.dueDate,
    order := r.order.getD t.order,
    assignedToId := r.assignedToId.getD t.assignedToId }

/-- Application of the patch to the table: `prisma.todo.update` rewrites
the row with the given id and leaves every other row alone. -/
def patchTodos (tid : String) (r : UpdateReq) (l : List Todo) : List Todo :=
  l.map (fun t => if t.id == tid then applyUpdate r t else t)

/-- PUT /:id (todos.ts lines 133-178): access check by findFirst with the
access OR-clause; when `assignedToId` is supplied the target user must
exist and not be DISABLED, otherwise 400 before anything is written; then
the patch is applied to the row with the given id. -/
def updateTodo (userId tid : String) (r : UpdateReq) (db : DB) :
    DB × Except String Unit :=
  match db.todos.find? (fun t => t.id == tid && canAccess userId t) with
  | none => (db, Except.error "Todo not found or access denied")
  | some _ =>
    match r.assignedToId with
    | some aid =>
      match db.users.find? (fun v => v.id == aid) with
      | none => (db, Except.error "Assigned user not found or disabled")
      | some au =>
        if au.status = UserStatus.DISABLED then
          (db, Except.error "Assigned user not found or disabled")
        else
          ({ db with todos := patchTodos tid r db.todos }, Except.ok ())
    | none =>
      ({ db with todos := patchTodos tid r db.todos }, Except.ok ())

/-- The POST / request body after validation middleware. -/
structure CreateReq where
  title : String
  description : Option String
  assignedToId : String
  dueDate : Option Nat
deriving DecidableEq, Repr

/-- A file as multer hands it to the handler: generated stored name,
user-supplied original name, byte size and media type. -/
structure UploadedFile where
  filename : String
  originalname : String
  size : Nat
  mimetype : String
deriving DecidableEq, Repr

/-- POST / (todos.ts lines 82-129): the assignee must exist and not be
DISABLED (400 `Assigned user not found or disabled` otherwise, with
nothing persisted); then the todo row is inserted and one file record per
uploaded file is attached to it.  `newId` and `fileIds` stand for the
database-generated identifiers and `now` for the insertion timestamp;
status PENDING and order 0 are the schema defaults. -/
def createTodo (userId : String) (req : CreateReq)
    (files : List UploadedFile) (newId : String) (fileIds : List String)
    (now : Nat) (db : DB) : DB × Except String Unit :=
  match db.users.find? (fun v => v.id == req.assignedToId) with
  | none => (db, Except.error "Assigned user not found or disabled")
  | some au =>
    if au.status = UserStatus.DISABLED then
      (db, Except.error "Assigned user not found or disabled")
    else
      ({ db with
          todos := db.todos ++
            [{ id := newId, title := req.title,
               description := req.description, status := "PENDING",
               dueDate := req.dueDate, order := 0, createdAt := now,
               createdById := userId, assignedToId := req.assignedToId }],
          files := db.files ++ (fileIds.zip files).map (fun p =>
            { id := p.1, filename := p.2.filename,
              originalName := p.2.originalname,
              path := "/uploads/" ++ p.2.filename, size := p.2.size,
              mimeType := p.2.mimetype, todoId := newId }) },
       Except.ok ())

/-- Every user with the assignee's id is DISABLED, or no user has it: the
negation of `resolves to an existing ACTIVE user`. -/
def noActiveUser (aid : String) (db : DB) : Prop :=
  ∀ v ∈ db.users, v.id = aid → v.status = UserStatus.DISABLED

instance (aid : String) (db : DB) : Decidable (noActiveUser aid db) := by
  unfold noActiveUser
  infer_instance

/-- From `noActiveUser`, the user lookup both routes perform answers
either nothing or a DISABLED row. -/
theorem find_assignee_cases (aid : String) (db : DB)
    (hbad : noActiveUser aid db) :
    db.users.find? (fun v => v.id == aid) = none ∨
      ∃ au, db.users.find? (fun v => v.id == aid) = some au ∧
        au.status = UserStatus.DISABLED := by
  cases h : db.users.find? (fun v => v.id == aid) with
  | none => exact Or.inl rfl
  | some au =>
    refine Or.inr ⟨au, rfl, ?_⟩
    have hmem := List.mem_of_find?_eq_some h
    have hp := List.find?_some h
    exact hbad au hmem (by simpa using hp)

/-- C5: when the supplied assignee id does not resolve to an ACTIVE user
(no such user, or a DISABLED one), creating answers the 400
`Assigned user not found or disabled` with no todo or file row persisted,
and updating an accessible todo answers the same 400 with no field of any
todo changed - both operations return the store exactly as it was. -/
theorem assignee_must_be_active (userId aid : String) (db : DB)
    (hbad : noActiveUser aid db)
    (req : CreateReq) (hreq : req.assignedToId = aid)
    (files : List UploadedFile) (newId : String) (fileIds : List String)
    (now : Nat) (tid : String) (r : UpdateReq)
    (hr : r.assignedToId = some aid)
    (hacc : ∃ T ∈ db.todos, T.id = tid ∧ canAccess userId T = true) :
    createTodo userId req files newId fileIds now db =
        (db, Except.error "Assigned user not found or disabled") ∧
      updateTodo userId tid r db =
        (db, Except.error "Assigned user not found or disabled") := by
  constructor
  · unfold createTodo
    rw [hreq]
    rcases find_assignee_cases aid db hbad with h | ⟨au, h, hdis⟩
    · rw [h]
    · rw [h]
      simp [hdis]
  · have hsome : (db.todos.find?
        (fun t : Todo => t.id == tid && canAccess userId t)).isSome := by
      rw [List.find?_isSome]
      rcases hacc with ⟨T, hT, hid, hca⟩
      exact ⟨T, hT, by simp [hid, hca]⟩
    rcases Option.isSome_iff_exists.mp hsome with ⟨t', ht'⟩
    unfold updateTodo
    rcases find_assignee_cases aid db hbad with h | ⟨au, h, hdis⟩
    · simp [ht', hr, h]
    · simp [ht', hr, h, hdis]

/-- A database whose only candidate assignee u3 is DISABLED. -/
def dbC : DB :=
  { users := [{ id := "u1", role := Role.USER, status := UserStatus.ACTIVE },
              { id := "u3", role := Role.USER, status := UserStatus.DISABLED }],
    todos := [todoA],
    files := [] }

/-- Witness for C5: assigning to the DISABLED user u3 is rejected by both
the create and the update route over `dbC`, which is returned unchanged. -/
theorem assignee_must_be_active_witness :
    (noActiveUser "u3" dbC ∧
      (CreateReq.mk "task" none "u3" none).assignedToId = "u3" ∧
      (UpdateReq.mk none none none none none (some "u3")).assignedToId =
        some "u3" ∧
      (∃ T ∈ dbC.todos, T.id = "t1" ∧ canAccess "u1" T = true)) ∧
    (createTodo "u1" (CreateReq.mk "task" none "u3" none) [] "t9" [] 50 dbC =
        (dbC, Except.error "Assigned user not found or disabled") ∧
      updateTodo "u1" "t1" (UpdateReq.mk none none none none none (some "u3"))
          dbC =
        (dbC, Except.error "Assigned user not found or disabled")) :=
  ⟨⟨by decide, by decide, by decide, by decide⟩,
    assignee_must_be_active "u1" "u3" dbC (by decide)
      (CreateReq.mk "task" none "u3" none) (by decide) [] "t9" [] 50 "t1"
      (UpdateReq.mk none none none none none (some "u3")) (by decide)
      (by decide)⟩

/-- C7: a successful PUT /:id leaves every row other than the target
untouched and, on the target row, changes exactly the supplied fields:
each of title, description, status, dueDate, order and assignedToId that
the request did not supply keeps its previous value - in particular a
status-only request leaves title, description and assignee unchanged. -/
theorem updateTodo_frame (userId tid : String) (r : UpdateReq) (db db' : DB)
    (h : updateTodo userId tid r db = (db', Except.ok ())) (T : Todo)
    (hT : T ∈ db.todos) :
    ∃ T' ∈ db'.todos, T'.id = T.id ∧
      (T.id ≠ tid → T' = T) ∧
      (r.title = none → T'.title = T.title) ∧
      (r.description = none → T'.description = T.description) ∧
      (r.status = none → T'.status = T.status) ∧
      (r.dueDate = none → T'.dueDate = T.dueDate) ∧
      (r.order = none → T'.order = T.order) ∧
      (r.assignedToId = none → T'.assignedToId = T.assignedToId) := by
  have hdb : db'.todos = patchTodos tid r db.todos := by
    unfold updateTodo at h
    cases hf : db.todos.find? (fun t => t.id == tid && canAccess userId t) with
    | none =>
      simp only [hf] at h
      exact absurd (congrArg Prod.snd h) (by simp)
    | some t0 =>
      simp only [hf] at h
      cases ha : r.assignedToId with
      | none =>
        simp only [ha] at h
        have h1 : ({ db with todos := patchTodos tid r db.todos } : DB) = db' :=
          congrArg Prod.fst h
        rw [← h1]
      | some aid =>
        simp only [ha] at h
        cases hu : db.users.find? (fun v => v.id == aid) with
        | none =>
          simp only [hu] at h
          exact absurd (congrArg Prod.snd h) (by simp)
        | some au =>
          simp only [hu] at h
          by_cases hdis : au.status = UserStatus.DISABLED
          · rw [if_pos hdis] at h
            exact absurd (congrArg Prod.snd h) (by simp)
          · rw [if_neg hdis] at h
            have h1 : ({ db with todos := patchTodos tid r db.todos } : DB)
                = db' := congrArg Prod.fst h
            rw [← h1]
  refine ⟨if T.id == tid then applyUpdate r T else T, ?_, ?_⟩
  · rw [hdb]
    exact List.mem_map_of_mem _ hT
  · by_cases hid : T.id = tid
    · have hc : (T.id == tid) = true := by simp [hid]
      simp only [hc, if_true]
      refine ⟨by simp [applyUpdate], fun hne => absurd hid hne,
        ?_, ?_, ?_, ?_, ?_, ?_⟩ <;>
        (intro h0; simp [applyUpdate, h0])
    · have hc : (T.id == tid) = false := by simp [hid]
      simp [hc]

instance : DecidableEq (Except String Unit) := fun a b =>
  match a, b with
  | Except.error x, Except.error y =>
      if h : x = y then isTrue (by rw [h])
      else isFalse (fun hh => h (by cases hh; rfl))
  | Except.error _, Except.ok _ => isFalse (fun hh => Except.noConfusion hh)
  | Except.ok _, Except.error _ => isFalse (fun hh => Except.noConfusion hh)
  | Except.ok x, Except.ok y =>
      if h : x = y then isTrue (by rw [h])
      else isFalse (fun hh => h (by cases hh; rfl))

/-- The status-only patch of the C7 witness scenario. -/
def updC7 : UpdateReq :=
  { title := none, description := none, status := some "IN_PROGRESS",
    dueDate := none, order := none, assignedToId := none }

/-- The database after the C7 witness update: only todoA's status moved. -/
def dbC7 : DB := { dbA with todos := [{ todoA with status := "IN_PROGRESS" }] }

/-- Witness for C7: the assignee u2 patches only the status of t1; the
frame guarantee is obtained at that concrete call. -/
theorem updateTodo_frame_witness :
    (updateTodo "u2" "t1" updC7 dbA = (dbC7, Except.ok ()) ∧
      todoA ∈ dbA.todos) ∧
    (∃ T' ∈ dbC7.todos, T'.id = todoA.id ∧
      (todoA.id ≠ "t1" → T' = todoA) ∧
      (updC7.title = none → T'.title = todoA.title) ∧
      (updC7.description = none → T'.description = todoA.description) ∧
      (updC7.status = none → T'.status = todoA.status) ∧
      (updC7.dueDate = none → T'.dueDate = todoA.dueDate) ∧
      (updC7.order = none → T'.order = todoA.order) ∧
      (updC7.assignedToId = none → T'.assignedToId = todoA.assignedToId)) :=
  ⟨⟨by decide, by decide⟩,
    updateTodo_frame "u2" "t1" updC7 dbA dbC7 (by decide) todoA (by decide)⟩

/-- Outcome of GET /download/:id: a 404 with a message, or a byte stream
with the attachment's stored name, original name and media type. -/
inductive DownloadResult
  | failure (msg : String)
  | stream (storedName originalName mimeType : String)
deriving DecidableEq, Repr

/-- GET /download/:id (files route lines 325-360): findFirst on the file
with the id and an accessible parent todo (merged 404 otherwise); then
`fs.existsSync` on the stored object - modelled by membership of the
stored name in `disk`, the list of object names present in the uploads
directory - answering 404 `File not found on disk` when the object is
gone; only then are the bytes streamed with the original name and
recorded media type. -/
def downloadFile (userId fid : String) (db : DB) (disk : List String) :
    DownloadResult :=
  match db.files.find? (fun f => f.id == fid &&
      db.todos.any (fun t => t.id == f.todoId && canAccess userId t)) with
  | none => DownloadResult.failure "File not found or access denied"
  | some f =>
    if disk.contains f.filename then
      DownloadResult.stream f.filename f.originalName f.mimeType
    else
      DownloadResult.failure "File not found on disk"

/-- Id uniqueness for file rows, as for todos. -/
theorem file_id_inj {l : List FileRec} (h : (l.map FileRec.id).Nodup)
    {a b : FileRec} (ha : a ∈ l) (hb : b ∈ l) (hid : a.id = b.id) : a = b :=
  List.inj_on_of_nodup_map h ha hb hid

/-- C8: when the metadata record exists and its parent todo is accessible
to the caller, but the backing storage object is absent from the uploads
directory, download answers the 404 `File not found on disk` - it never
streams. -/
theorem downloadFile_missing_object (userId : String) (F : FileRec) (db : DB)
    (disk : List String)
    (hnd : (db.files.map FileRec.id).Nodup) (hF : F ∈ db.files)
    (hacc : db.todos.any (fun t => t.id == F.todoId && canAccess userId t)
      = true)
    (hdisk : F.filename ∉ disk) :
    downloadFile userId F.id db disk =
      DownloadResult.failure "File not found on disk" := by
  have hpF : (fun f : FileRec => f.id == F.id &&
      db.todos.any (fun t => t.id == f.todoId && canAccess userId t)) F
      = true := by
    simp only [beq_self_eq_true, Bool.true_and]
    exact hacc
  have hsome : (db.files.find? (fun f : FileRec => f.id == F.id &&
      db.todos.any (fun t => t.id == f.todoId && canAccess userId t))).isSome
      := by
    rw [List.find?_isSome]
    exact ⟨F, hF, hpF⟩
  rcases Option.isSome_iff_exists.mp hsome with ⟨f', hf'⟩
  have hmem := List.mem_of_find?_eq_some hf'
  have hp' := List.find?_some hf'
  simp only [Bool.and_eq_true, beq_iff_eq] at hp'
  have heq : f' = F := file_id_inj hnd hmem hF hp'.1
  have hcon : disk.contains f'.filename = false := by
    rw [heq]
    simpa using hdisk
  unfold downloadFile
  simp [hf', hcon]
  exact heq ▸ hdisk

/-- A file record attached to todoA. -/
def fileF : FileRec :=
  { id := "f1", filename := "169-report.pdf", originalName := "report.pdf",
    path := "/uploads/todos/169-report.pdf", size := 1024,
    mimeType := "application/pdf", todoId := "t1" }

/-- The database of the C8 witness: `dbA` plus the record `fileF` whose
bytes are absent from the (empty) disk. -/
def dbD : DB := { dbA with files := [fileF] }

/-- Witness for C8: creator u1 downloads f1 while the uploads directory is
empty; the call answers the on-disk 404. -/
theorem downloadFile_missing_object_witness :
    ((dbD.files.map FileRec.id).Nodup ∧ fileF ∈ dbD.files ∧
      (dbD.todos.any (fun t => t.id == fileF.todoId && canAccess "u1" t)
        = true) ∧
      fileF.filename ∉ ([] : List String)) ∧
    downloadFile "u1" fileF.id dbD [] =
      DownloadResult.failure "File not found on disk" :=
  ⟨⟨by decide, by decide, by decide, by decide⟩,
    downloadFile_missing_object "u1" fileF dbD [] (by decide) (by decide)
      (by decide) (by decide)⟩

/-- The fragments of the fileFilter alternation regex (files route line
192): the lower-cased extension must contain one of them. -/
def extFragments : List String :=
  ["jpeg", "jpg", "png", "gif", "pdf", "doc", "docx", "txt", "zip", "rar",
   "xlsx", "xls", "ppt", "pptx"]

/-- Characters after the last dot of the list, `none` when no dot. -/
def afterLastDot : List Char → Option (List Char)
  | [] => none
  | c :: rest =>
    match afterLastDot rest with
    | some e => some e
    | none => if c = '.' then some rest else none

/-- The extension as path.extname returns it: the last dot of the name
together with what follows, empty when the name has no dot. -/
def extnameChars (name : String) : List Char :=
  match afterLastDot name.toList with
  | some e => '.' :: e
  | none => []

/-- The extension test of the multer fileFilter (files route line 193):
the lower-cased extension must contain one of the regex fragments. -/
def allowedExt (name : String) : Bool :=
  extFragments.any
    (fun frag => subAt frag.toList (lowerChars (extnameChars name)))

/-- The media-type test of the multer fileFilter (files route line 194):
the regex matches when the mimetype contains one of the three family
markers anywhere. -/
def allowedMime (m : String) : Bool :=
  subAt "image/".toList m.toList || subAt "application/".toList m.toList ||
    subAt "text/".toList m.toList

/-- One file passes the multer pipeline when it is within the configured
size limit and both fileFilter tests accept it. -/
def validFile (maxSize : Nat) (f : UploadedFile) : Bool :=
  decide (f.size ≤ maxSize) && allowedExt f.originalname &&
    allowedMime f.mimetype

/-- POST /upload/:todoId together with its multer middleware
(files route lines 185-252).
Modelled from the spec: multer itself is a library outside src; per the
spec's all-or-nothing clause, when the batch exceeds 5 files or any file
fails the size or type checks, the request is rejected before the handler
runs and every object already stored for the batch is removed again, so
the failure branches return the database and the disk unchanged.  The
success path is the handler itself: access check on the parent todo,
rejection of empty batches, then one file record per upload next to its
stored object.  `fileIds` stands for the database-generated record ids. -/
def uploadFiles (userId todoId : String) (maxSize : Nat)
    (files : List UploadedFile) (fileIds : List String) (db : DB)
    (disk : List String) : (DB × List String) × Except String Unit :=
  if 5 < files.length then
    ((db, disk), Except.error "Too many files")
  else if files.all (validFile maxSize) then
    match db.todos.find? (fun t => t.id == todoId && canAccess userId t) with
    | none => ((db, disk), Except.error "Todo not found or access denied")
    | some _ =>
      if files.isEmpty then
        ((db, disk), Except.error "No files uploaded")
      else
        (({ db with files := db.files ++ (fileIds.zip files).map (fun p =>
              { id := p.1, filename := p.2.filename,
                originalName := p.2.originalname,
                path := "/uploads/todos/" ++ p.2.filename, size := p.2.size,
                mimeType := p.2.mimetype, todoId := todoId }) },
          disk ++ files.map UploadedFile.filename),
         Except.ok ())
  else
    ((db, disk), Except.error "Upload validation failed")

/-- C6: a batch within the size bound of 5 in which some file fails
validation (over the size limit, or outside the type allow-list) is
rejected as a whole: the response is the validation error and both the
file table and the disk are exactly as before the call - zero persisted
records of the batch and zero orphaned storage objects. -/
theorem uploadFiles_all_or_nothing (userId todoId : String) (maxSize : Nat)
    (files : List UploadedFile) (fileIds : List String) (db : DB)
    (disk : List String) (hlen : files.length ≤ 5)
    (hbad : ∃ f ∈ files, validFile maxSize f = false) :
    uploadFiles userId todoId maxSize files fileIds db disk =
      ((db, disk), Except.error "Upload validation failed") := by
  have hnot : ¬ 5 < files.length := Nat.not_lt.mpr hlen
  have hall : files.all (validFile maxSize) = false := by
    cases h : files.all (validFile maxSize)
    · rfl
    · rcases hbad with ⟨f, hf, hvf⟩
      have := List.all_eq_true.mp h f hf
      rw [hvf] at this
      exact Bool.noConfusion this
  unfold uploadFiles
  rw [if_neg hnot, hall]
  simp

/-- The three files of the C6 witness: the second exceeds the 10-byte
limit configured for the scenario. -/
def batchC6 : List UploadedFile :=
  [{ filename := "1-a.pdf", originalname := "a.pdf", size := 5,
     mimetype := "application/pdf" },
   { filename := "2-b.pdf", originalname := "b.pdf", size := 20,
     mimetype := "application/pdf" },
   { filename := "3-c.png", originalname := "c.png", size := 7,
     mimetype := "image/png" }]

/-- Witness for C6: the 3-file batch whose second file is oversized is
rejected and `dbA` and the disk come back unchanged. -/
theorem uploadFiles_all_or_nothing_witness :
    (batchC6.length ≤ 5 ∧
      (∃ f ∈ batchC6, validFile 10 f = false)) ∧
    uploadFiles "u1" "t1" 10 batchC6 ["f1", "f2", "f3"] dbA ["old.bin"] =
      ((dbA, ["old.bin"]), Except.error "Upload validation failed") :=
  ⟨⟨by decide, by decide⟩,
    uploadFiles_all_or_nothing "u1" "t1" 10 batchC6 ["f1", "f2", "f3"] dbA
      ["old.bin"] (by decide) (by decide)⟩

end TodoApp
